import Mathlib

/-!
# Tunnerse relay core — shallow embedding and verification

This file embeds the tunnel registry and request/response correlation engine
of the Tunnerse API (package `services`, file
`internal/api/services/tunnel_service.go`, together with the controller
dispatch in `internal/api/controllers/tunnel_controller.go`) and proves
properties of that embedding.

Modelling conventions:
* Go `map[string]T` is modelled as an association list with Go-map update
  semantics (`ainsert` replaces, `aerase` deletes the key).
* Channels are identified by numeric ids; a per-request response channel's
  runtime state (buffered element count, closed flag) is modelled explicitly
  where a claim needs it.
* Functions of the environment (the random-code generator, `io.ReadAll`,
  the JSON decoder, timer/select race outcomes) are inputs to the embedded
  operations, so every operation is a pure function of its inputs.
-/

set_option maxHeartbeats 1000000

namespace Tunnerse

/-! ## Association lists with Go-map semantics -/

/-- Lookup in an association list (Go `v, ok := m[k]`). -/
def alookup {β : Type} : List (String × β) → String → Option β
  | [], _ => none
  | (k', v) :: t, k => if k' = k then some v else alookup t k

/-- Delete a key (Go `delete(m, k)`). Removes every entry with that key. -/
def aerase {β : Type} : List (String × β) → String → List (String × β)
  | [], _ => []
  | (k', v) :: t, k => if k' = k then aerase t k else (k', v) :: aerase t k

/-- Map assignment (Go `m[k] = v`): the new binding replaces any old one. -/
def ainsert {β : Type} (l : List (String × β)) (k : String) (v : β) :
    List (String × β) :=
  (k, v) :: aerase l k

theorem alookup_aerase_self {β : Type} (l : List (String × β)) (k : String) :
    alookup (aerase l k) k = none := by
  induction l with
  | nil => rfl
  | cons hd t ih =>
    obtain ⟨k', v⟩ := hd
    by_cases h : k' = k
    · simp [aerase, h, ih]
    · simp [aerase, alookup, h, ih]

theorem alookup_aerase_ne {β : Type} (l : List (String × β)) (k k' : String)
    (h : k' ≠ k) : alookup (aerase l k) k' = alookup l k' := by
  induction l with
  | nil => rfl
  | cons hd t ih =>
    obtain ⟨k'', v⟩ := hd
    by_cases hk : k'' = k
    · subst hk
      have hk'' : k'' ≠ k' := fun hc => h hc.symm
      simp [aerase, alookup, hk'', ih]
    · by_cases hk' : k'' = k'
      · subst hk'
        simp [aerase, alookup, hk]
      · simp [aerase, alookup, hk, hk', ih]

theorem alookup_ainsert_self {β : Type} (l : List (String × β)) (k : String)
    (v : β) : alookup (ainsert l k v) k = some v := by
  simp [ainsert, alookup]

theorem alookup_ainsert_ne {β : Type} (l : List (String × β)) (k k' : String)
    (v : β) (h : k' ≠ k) : alookup (ainsert l k v) k' = alookup l k' := by
  have hk : k ≠ k' := fun hc => h hc.symm
  simp [ainsert, alookup, hk, alookup_aerase_ne l k k' h]

/-! ## Register: name minting loop

`TunnelService.Register`, lines 57–69:

```go
var tunnelName string
for {
    random := utils.RandomCode(3)
    tunnelName = name + "-" + random
    s.mux.RLock()
    _, exists := s.tunnels[tunnelName]
    s.mux.RUnlock()
    if !exists { break }
}
```

The loop body is driven by the stream of random codes produced by
`utils.RandomCode`; we embed it as a recursion over a (finite prefix of
that) stream. The result pairs the number of iterations executed with the
minted name; `none` means the prefix was consumed with the loop still
running (every candidate collided). The Go loop has no other exit: there is
no attempt counter and no error return in the source.
-/

/-- Candidate name construction: `name + "-" + random`. -/
def mintCandidate (name random : String) : String := name ++ "-" ++ random

/-- The minting loop, iterated over a prefix `rands` of the random-code
stream. Returns (iterations executed, minted name if the loop exited). -/
def mintLoop (registry : List String) (name : String) :
    List String → Nat × Option String
  | [] => (0, none)
  | r :: rs =>
    if mintCandidate name r ∈ registry then
      let rec_ := mintLoop registry name rs
      (rec_.1 + 1, rec_.2)
    else (1, some (mintCandidate name r))

theorem mintLoop_all_collide (registry : List String) (name : String)
    (rs : List String) (h : ∀ r ∈ rs, mintCandidate name r ∈ registry) :
    mintLoop registry name rs = (rs.length, none) := by
  induction rs with
  | nil => rfl
  | cons r rs ih =>
    have hr : mintCandidate name r ∈ registry := h r (List.mem_cons_self r rs)
    have hrs : ∀ x ∈ rs, mintCandidate name x ∈ registry := by
      intro x hx
      exact h x (List.mem_cons_of_mem r hx)
    simp [mintLoop, hr, ih hrs]

/-! ## Register: tunnel allocation

`TunnelService.Register`, lines 71–76:

```go
t := &Tunnel{
    requestCh:       make(chan *http.Request),
    writerCh:        make(chan http.ResponseWriter),
    pendingRequests: make(map[string]chan *ResponseWithToken),
    stopTimer:       make(chan struct{}),
}
```

All four channels are created by `make(chan T)` with no capacity argument,
i.e. unbuffered (capacity 0); the pending map starts empty.
-/

structure TunnelInit where
  requestChCap : Nat
  writerChCap : Nat
  stopTimerCap : Nat
  pendingRequests : List (String × Nat)
  deriving DecidableEq, Repr

/-- The tunnel state allocated by `Register` (source lines 71–76). -/
def registerTunnelInit : TunnelInit :=
  { requestChCap := 0
    writerChCap := 0
    stopTimerCap := 0
    pendingRequests := [] }

/-- Go buffered-channel semantics: a send can park a value on the channel
(without a waiting receiver) iff the number already queued is below the
capacity. -/
def chanCanEnqueue (cap queued : Nat) : Bool := queued < cap

/-! ## Claim theorems: C2 (mint-loop cap) and C5 (requestCh capacity) -/

/-- C2, counterexample: the minting loop has no hard cap. With a registry
in which the candidate always collides, a stream of 2000 colliding random
codes is consumed whole — 2000 retries, well past the claimed 1000-attempt
cap — and the loop is still running (`none`); no name-exhausted error is
ever produced (the source loop has no error exit at all). -/
theorem register_mint_cap_counterexample :
    mintLoop ["x-aaa"] "x" (List.replicate 2000 "aaa") = (2000, none) ∧
      1000 < 2000 := by
  constructor
  · have h := mintLoop_all_collide ["x-aaa"] "x" (List.replicate 2000 "aaa")
      (by
        intro r hr
        rw [List.eq_of_mem_replicate hr]
        decide)
    rw [List.length_replicate] at h
    exact h
  · decide

/-- C2, amended: the minting loop retries with no attempt cap. If every
candidate in a prefix of the random stream collides, the loop consumes the
whole prefix — one iteration per code, for a prefix of any length — and
keeps looping, never returning an error; and whenever the loop does exit,
the minted name is the first candidate absent from the registry. -/
theorem register_mint_no_cap (registry : List String) (name : String) :
    (∀ rs : List String, (∀ r ∈ rs, mintCandidate name r ∈ registry) →
      mintLoop registry name rs = (rs.length, none)) ∧
    (∀ rs : List String, ∀ c : String,
      (mintLoop registry name rs).2 = some c →
      c ∉ registry ∧ ∃ r ∈ rs, c = mintCandidate name r) := by
  constructor
  · intro rs h
    exact mintLoop_all_collide registry name rs h
  · intro rs
    induction rs with
    | nil => intro c h; simp [mintLoop] at h
    | cons r rs ih =>
      intro c h
      by_cases hr : mintCandidate name r ∈ registry
      · simp only [mintLoop, if_pos hr] at h
        obtain ⟨hc, r', hr', hcr⟩ := ih c h
        exact ⟨hc, r', List.mem_cons_of_mem r hr', hcr⟩
      · simp only [mintLoop, if_neg hr] at h
        cases h
        exact ⟨hr, r, List.mem_cons_self r rs, rfl⟩

/-- Witness for `register_mint_no_cap`: concrete instantiation of both
conjuncts. -/
theorem register_mint_no_cap_witness :
    mintLoop ["x-aaa"] "x" ["aaa", "aaa"] = (2, none) ∧
      ("x-bbb" ∉ ["x-aaa"] ∧ ∃ r ∈ ["aaa", "bbb"], "x-bbb" = mintCandidate "x" r) := by
  refine ⟨(register_mint_no_cap ["x-aaa"] "x").1 ["aaa", "aaa"] ?_,
    (register_mint_no_cap ["x-aaa"] "x").2 ["aaa", "bbb"] "x-bbb" ?_⟩
  · intro r hr
    fin_cases hr <;> decide
  · decide

/-- C5, counterexample: `requestCh` is created by `make(chan *http.Request)`
with no capacity argument — an unbuffered channel. Its capacity is 0, not a
small positive integer. -/
theorem requestCh_capacity_counterexample :
    ¬ 0 < registerTunnelInit.requestChCap := by decide

/-- C5, amended: every tunnel created by `Register` has an unbuffered
`requestCh` (capacity 0), so no external request can ever be parked on the
channel awaiting an agent poll: a send completes only by direct handoff to
a concurrently receiving `Get`. -/
theorem requestCh_unbuffered :
    registerTunnelInit.requestChCap = 0 ∧
      ∀ queued : Nat,
        chanCanEnqueue registerTunnelInit.requestChCap queued = false := by
  constructor
  · rfl
  · intro queued
    show chanCanEnqueue 0 queued = false
    simp [chanCanEnqueue]

/-! ## Service state and the registry-level operations

`models.ResponseData` (current variant of the models file): status code,
headers map, base64 body, echoed token.
-/

structure ResponseData where
  statusCode : Nat
  headers : List (String × List String)
  body : String
  token : String
  deriving DecidableEq, Repr

/-- Per-tunnel mutable state (struct `Tunnel`, lines 37–45), together with
observational counters for the timer side effects: `inactivityResets`
counts calls of `resetTimer` (the closure armed at lines 84–92, which
touches only the inactivity timer), `maxLifetimeResets` counts any reset of
`maxLifetimeTimer` (the source never resets it, so every operation must
preserve the counter), and `stopSends` counts send statements executed on
`stopTimer`. `pending` is `pendingRequests`, mapping a token to the id of
its per-request response channel. -/
structure TunnelSt where
  pending : List (String × Nat)
  closed : Bool
  inactivityResets : Nat
  maxLifetimeResets : Nat
  stopSends : Nat
  deriving DecidableEq, Repr

/-- `TunnelService.Response` (lines 199–251), up to and including the
removal of the pending slot and the identification of the rendezvous
channel the decoded payload is sent into. Inputs: the registry, the tunnel
name, and the result of decoding the request body JSON (`none` models a
decoder error). Output: (error, updated registry, delivery), where a
delivery `(ch, resp)` means `resp` is sent into response channel `ch`
(the send itself is modelled separately, see the channel-protocol
section). -/
def ResponseOp (reg : List (String × TunnelSt)) (name : String)
    (decoded : Option ResponseData) :
    Option String × List (String × TunnelSt) × Option (Nat × ResponseData) :=
  match alookup reg name with
  | none => (some "tunnel not found", reg, none)
  | some t =>
    match decoded with
    | none => (some "failed to decode response JSON", reg, none)
    | some resp =>
      if resp.token = "" then
        (some "missing Tunnerse-Request-Token in response", reg, none)
      else if t.closed then
        (some "tunnel is closed", reg, none)
      else
        match alookup t.pending resp.token with
        | none => (some "no pending request found for token", reg, none)
        | some ch =>
          (none,
            ainsert reg name { t with pending := aerase t.pending resp.token },
            some (ch, resp))

/-- Entry phase of `TunnelService.Get` (lines 131–148): registry lookup,
closed check, inactivity-timer reset. (`resetTimer` is always non-nil for
a registered tunnel, so the nil guard at line 145 is vacuous.) -/
def GetEntry (reg : List (String × TunnelSt)) (name : String) :
    Option String × List (String × TunnelSt) :=
  match alookup reg name with
  | none => (some "tunnel not found", reg)
  | some t =>
    if t.closed then (some "tunnel is closed", reg)
    else
      (none,
        ainsert reg name { t with inactivityResets := t.inactivityResets + 1 })

/-- Entry phase of `TunnelService.Tunnel` (lines 253–273): name validation,
registry lookup, closed check, inactivity-timer reset. `validateOk` is the
verdict of the external `validator.ValidateTunnelRegister`. -/
def TunnelEntry (validateOk : Bool) (reg : List (String × TunnelSt))
    (name : String) : Option String × List (String × TunnelSt) :=
  if !validateOk then (some "invalid name", reg)
  else
    match alookup reg name with
    | none => (some "tunnel not found", reg)
    | some t =>
      if t.closed then (some "tunnel is closed", reg)
      else
        (none,
          ainsert reg name
            { t with inactivityResets := t.inactivityResets + 1 })

/-- `TunnelService.Close` (lines 384–409). Output: (error, updated
registry, post-state of the removed tunnel if one was found). The stop
signal is a `select` with a `default` arm, hence never blocks; it is
executed only when the tunnel was not already marked closed. -/
def CloseOp (reg : List (String × TunnelSt)) (name : String) :
    Option String × List (String × TunnelSt) × Option TunnelSt :=
  match alookup reg name with
  | none => (some "tunnel not found", reg, none)
  | some t =>
    let reg' := aerase reg name
    if t.closed then (none, reg', some { t with closed := true })
    else
      (none, reg',
        some { t with closed := true, stopSends := t.stopSends + 1 })

/-! ## Claim theorems: C1 (token correlation in Response) -/

/-- C1: when the tunnel exists and is open and the decoded `ResponseData`
carries a non-empty token `T` bound in `pending`, `Response` succeeds,
delivers the payload into exactly the rendezvous channel stored under `T`,
removes `T` from `pending` (the delete at line 238 precedes the send at
line 243 in the source), and leaves every other token's slot untouched —
so the awaiting handler for `T` is the unique receiver of this payload. -/
theorem response_token_correlation
    (reg : List (String × TunnelSt)) (name : String) (t : TunnelSt)
    (resp : ResponseData) (ch : Nat)
    (hreg : alookup reg name = some t)
    (hopen : t.closed = false)
    (htok : resp.token ≠ "")
    (hslot : alookup t.pending resp.token = some ch) :
    (ResponseOp reg name (some resp)).1 = none ∧
    (ResponseOp reg name (some resp)).2.2 = some (ch, resp) ∧
    (∀ t' : TunnelSt,
      alookup (ResponseOp reg name (some resp)).2.1 name = some t' →
      alookup t'.pending resp.token = none ∧
      ∀ tok' : String, tok' ≠ resp.token →
        alookup t'.pending tok' = alookup t.pending tok') := by
  have hstep : ResponseOp reg name (some resp) =
      (none,
        ainsert reg name { t with pending := aerase t.pending resp.token },
        some (ch, resp)) := by
    simp [ResponseOp, hreg, htok, hopen, hslot]
  refine ⟨by rw [hstep], by rw [hstep], ?_⟩
  intro t' ht'
  rw [hstep] at ht'
  simp only at ht'
  rw [alookup_ainsert_self] at ht'
  cases ht'
  constructor
  · exact alookup_aerase_self t.pending resp.token
  · intro tok' hne
    exact alookup_aerase_ne t.pending resp.token tok' hne

/-- Witness for `response_token_correlation`: one-tunnel registry with two
pending tokens. -/
theorem response_token_correlation_witness :
    (ResponseOp
        [("svc-abc",
          { pending := [("t1", 5), ("t2", 7)], closed := false,
            inactivityResets := 0, maxLifetimeResets := 0,
            stopSends := 0 })]
        "svc-abc"
        (some { statusCode := 200, headers := [], body := "", token := "t1" })).1
      = none := by
  have h := response_token_correlation
    [("svc-abc",
      { pending := [("t1", 5), ("t2", 7)], closed := false,
        inactivityResets := 0, maxLifetimeResets := 0, stopSends := 0 })]
    "svc-abc"
    { pending := [("t1", 5), ("t2", 7)], closed := false,
      inactivityResets := 0, maxLifetimeResets := 0, stopSends := 0 }
    { statusCode := 200, headers := [], body := "", token := "t1" }
    5 (by decide) rfl (by decide) (by decide)
  exact h.1

/-! ## Claim theorems: C6 (Close idempotence) -/

/-- C6: a first Close on a registered tunnel succeeds, removes the name
from the registry, and a second Close on the same name then returns
*tunnel-not-found* without changing anything; while if the first Close
finds the tunnel already marked closed (a teardown raced ahead of the
registry delete), it still succeeds but does not execute the stop-signal
send again — teardown is never re-triggered. Close never blocks: the
stop-signal send in the source is a `select` with a `default` arm, and the
embedded operation is total. -/
theorem close_idempotent
    (reg : List (String × TunnelSt)) (name : String) (t : TunnelSt)
    (hreg : alookup reg name = some t) :
    (CloseOp reg name).1 = none ∧
    (CloseOp reg name).2.1 = aerase reg name ∧
    (CloseOp (CloseOp reg name).2.1 name =
      (some "tunnel not found", aerase reg name, none)) ∧
    (t.closed = true →
      (CloseOp reg name).2.2 = some { t with closed := true }) := by
  have hrm : alookup (aerase reg name) name = none :=
    alookup_aerase_self reg name
  by_cases hc : t.closed
  · have hstep : CloseOp reg name =
        (none, aerase reg name, some { t with closed := true }) := by
      simp [CloseOp, hreg, hc]
    refine ⟨by rw [hstep], by rw [hstep], ?_, fun _ => by rw [hstep]⟩
    rw [hstep]
    simp [CloseOp, hrm]
  · have hstep : CloseOp reg name =
        (none, aerase reg name,
          some { t with closed := true, stopSends := t.stopSends + 1 }) := by
      simp [CloseOp, hreg, hc]
    refine ⟨by rw [hstep], by rw [hstep], ?_, fun h => absurd h hc⟩
    rw [hstep]
    simp [CloseOp, hrm]

/-- Witness for `close_idempotent`. -/
theorem close_idempotent_witness :
    (CloseOp
        [("svc-abc",
          { pending := [], closed := false, inactivityResets := 0,
            maxLifetimeResets := 0, stopSends := 0 })]
        "svc-abc").1 = none := by
  have h := close_idempotent
    [("svc-abc",
      { pending := [], closed := false, inactivityResets := 0,
        maxLifetimeResets := 0, stopSends := 0 })]
    "svc-abc"
    { pending := [], closed := false, inactivityResets := 0,
      maxLifetimeResets := 0, stopSends := 0 }
    rfl
  exact h.1

/-! ## Claim theorems: C7 (which operations reset the inactivity timer) -/

/-- C7: the inactivity timer is reset exactly at the entry of a `Get` and
at the entry of a `Tunnel` call on a live tunnel (one reset each, with all
other tunnel state — pending map, closed flag, max-lifetime timer, stop
signal — unchanged by the reset); entries on a closed tunnel reset
nothing, and `Response` and `Close` never reset the inactivity timer nor
touch the max-lifetime timer. -/
theorem inactivity_reset_frame
    (reg : List (String × TunnelSt)) (name : String) (t : TunnelSt)
    (hreg : alookup reg name = some t) :
    (t.closed = false →
      (GetEntry reg name).1 = none ∧
      alookup (GetEntry reg name).2 name =
        some { t with inactivityResets := t.inactivityResets + 1 }) ∧
    (t.closed = true → (GetEntry reg name).2 = reg) ∧
    (t.closed = false →
      (TunnelEntry true reg name).1 = none ∧
      alookup (TunnelEntry true reg name).2 name =
        some { t with inactivityResets := t.inactivityResets + 1 }) ∧
    (t.closed = true → (TunnelEntry true reg name).2 = reg) ∧
    (∀ decoded : Option ResponseData, ∃ p,
      alookup (ResponseOp reg name decoded).2.1 name =
        some { t with pending := p }) ∧
    (∀ t' : TunnelSt, (CloseOp reg name).2.2 = some t' →
      t'.inactivityResets = t.inactivityResets ∧
      t'.maxLifetimeResets = t.maxLifetimeResets) := by
  have hteta : ({ t with pending := t.pending } : TunnelSt) = t := rfl
  refine ⟨?_, ?_, ?_, ?_, ?_, ?_⟩
  · intro hc
    constructor
    · simp [GetEntry, hreg, hc]
    · simp [GetEntry, hreg, hc, alookup_ainsert_self]
  · intro hc
    simp [GetEntry, hreg, hc]
  · intro hc
    constructor
    · simp [TunnelEntry, hreg, hc]
    · simp [TunnelEntry, hreg, hc, alookup_ainsert_self]
  · intro hc
    simp [TunnelEntry, hreg, hc]
  · intro decoded
    match decoded with
    | none => exact ⟨t.pending, by simp [ResponseOp, hreg, hteta, hreg]⟩
    | some resp =>
      by_cases htok : resp.token = ""
      · exact ⟨t.pending, by simp [ResponseOp, hreg, htok, hteta]⟩
      · by_cases hc : t.closed
        · refine ⟨t.pending, ?_⟩
          have hstep : (ResponseOp reg name (some resp)).2.1 = reg := by
            simp [ResponseOp, hreg, htok, hc]
          rw [hstep]
          exact hreg
        · cases hslot : alookup t.pending resp.token with
          | none =>
            refine ⟨t.pending, ?_⟩
            have hstep : (ResponseOp reg name (some resp)).2.1 = reg := by
              simp [ResponseOp, hreg, htok, hc, hslot]
            rw [hstep]
            exact hreg
          | some ch =>
            exact ⟨aerase t.pending resp.token,
              by simp [ResponseOp, hreg, htok, hc, hslot, alookup_ainsert_self]⟩
  · intro t' ht'
    by_cases hc : t.closed
    · simp [CloseOp, hreg, hc] at ht'
      rw [← ht']
      exact ⟨rfl, rfl⟩
    · simp [CloseOp, hreg, hc] at ht'
      rw [← ht']
      exact ⟨rfl, rfl⟩

/-- Witness for `inactivity_reset_frame`: a live one-tunnel registry. -/
theorem inactivity_reset_frame_witness :
    (GetEntry
        [("svc-abc",
          { pending := [], closed := false, inactivityResets := 0,
            maxLifetimeResets := 0, stopSends := 0 })]
        "svc-abc").1 = none := by
  have h := inactivity_reset_frame
    [("svc-abc",
      { pending := [], closed := false, inactivityResets := 0,
        maxLifetimeResets := 0, stopSends := 0 })]
    "svc-abc"
    { pending := [], closed := false, inactivityResets := 0,
      maxLifetimeResets := 0, stopSends := 0 }
    rfl
  exact (h.1 rfl).1

/-! ## Path rewriting in the Tunnel operation

`TunnelService.Tunnel`, lines 313–324:

```go
if !config.AppConfig.SUBDOMAIN {
    if parts := strings.SplitN(clonedRequest.URL.Path, "/", 3); len(parts) >= 3 {
        clonedRequest.URL.Path = "/" + parts[2]
        clonedRequest.RequestURI = clonedRequest.URL.Path
    } else {
        clonedRequest.URL.Path = "/"
        clonedRequest.RequestURI = "/"
    }
} else {
    clonedRequest.URL.Path = path
    clonedRequest.RequestURI = path
}
```

Paths are modelled as `List Char`; `splitFirst`/`splitN` embed Go's
`strings.SplitN(s, "/", n)` for the single-character separator `/`: split
around at most `n-1` separators, the last part keeping the unsplit
remainder. In subdomain mode the effective path is the `path` argument,
which the controller passes as `ctx.Request.URL.Path` — the incoming URL
path (tunnel_controller.go line 112).
-/

/-- Split a path at the first `/`: `some (before, after)`, or `none` when
the path contains no `/`. -/
def splitFirst : List Char → Option (List Char × List Char)
  | [] => none
  | c :: cs =>
    if c = '/' then some ([], cs)
    else
      match splitFirst cs with
      | none => none
      | some (pre, post) => some (c :: pre, post)

/-- Go `strings.SplitN(s, "/", n)` for `n > 0`. -/
def splitN : List Char → Nat → List (List Char)
  | _, 0 => []
  | cs, 1 => [cs]
  | cs, n + 2 =>
    match splitFirst cs with
    | none => [cs]
    | some (pre, post) => pre :: splitN post (n + 1)

/-- The effective target path set on the cloned request (source lines
313–324). `urlPath` is the cloned request's URL path (the incoming one);
`path` is the `path` argument of `Tunnel`. -/
def goRewritePath (subdomain : Bool) (urlPath path : List Char) :
    List Char :=
  if !subdomain then
    let parts := splitN urlPath 3
    if parts.length ≥ 3 then '/' :: parts.getD 2 [] else ['/']
  else path

theorem splitFirst_no_sep (t : List Char) (h : '/' ∉ t) :
    splitFirst t = none := by
  induction t with
  | nil => rfl
  | cons c cs ih =>
    have hc : c ≠ '/' := fun hcc => h (hcc ▸ List.mem_cons_self c cs)
    have hcs : '/' ∉ cs := fun hm => h (List.mem_cons_of_mem c hm)
    simp [splitFirst, hc, ih hcs]

theorem splitFirst_append (t rest : List Char) (h : '/' ∉ t) :
    splitFirst (t ++ '/' :: rest) = some (t, rest) := by
  induction t with
  | nil => simp [splitFirst]
  | cons c cs ih =>
    have hc : c ≠ '/' := fun hcc => h (hcc ▸ List.mem_cons_self c cs)
    have hcs : '/' ∉ cs := fun hm => h (List.mem_cons_of_mem c hm)
    simp [splitFirst, hc, ih hcs]

/-! ## Claim theorems: C4 (path rewrite) -/

/-- C4: in path-prefix mode, an incoming path `/<tunnel>/<rest>` is
rewritten to `/<rest>` (for any rest, including one with further slashes
or the empty rest), and an incoming path with no second slash-segment
(`/<tunnel>`, or a path with no slash at all) becomes exactly `/`; in
subdomain mode the effective path is the `path` argument, i.e. the
incoming URL path the controller passes, unchanged. -/
theorem tunnel_path_rewrite (pa : List Char) :
    (∀ t rest : List Char, '/' ∉ t →
      goRewritePath false ('/' :: (t ++ '/' :: rest)) pa = '/' :: rest) ∧
    (∀ t : List Char, '/' ∉ t →
      goRewritePath false ('/' :: t) pa = ['/']) ∧
    (∀ t : List Char, '/' ∉ t →
      goRewritePath false t pa = ['/']) ∧
    (∀ p : List Char, goRewritePath true p p = p) := by
  refine ⟨?_, ?_, ?_, ?_⟩
  · intro t rest h
    simp [goRewritePath, splitN, splitFirst, splitFirst_append t rest h]
  · intro t h
    simp [goRewritePath, splitN, splitFirst, splitFirst_no_sep t h]
  · intro t h
    cases t with
    | nil => rfl
    | cons c cs =>
      have hc : c ≠ '/' := fun hcc => h (hcc ▸ List.mem_cons_self c cs)
      have hcs : '/' ∉ cs := fun hm => h (List.mem_cons_of_mem c hm)
      simp [goRewritePath, splitN, splitFirst, hc, splitFirst_no_sep cs hcs]
  · intro p
    rfl

/-- Witness for `tunnel_path_rewrite`: `/svc-abc/api/x` becomes `/api/x`,
`/svc-abc` becomes `/`, and subdomain mode keeps `/api/x`. -/
theorem tunnel_path_rewrite_witness :
    goRewritePath false ('/' :: (['s', 'v', 'c'] ++ '/' :: ['a', 'p', 'i']))
        ['/'] = '/' :: ['a', 'p', 'i'] ∧
    goRewritePath false ('/' :: ['s', 'v', 'c']) ['/'] = ['/'] ∧
    goRewritePath true ['/', 'a'] ['/', 'a'] = ['/', 'a'] := by
  refine ⟨(tunnel_path_rewrite ['/']).1 ['s', 'v', 'c'] ['a', 'p', 'i']
      (by decide),
    ((tunnel_path_rewrite ['/']).2).1 ['s', 'v', 'c'] (by decide),
    (((tunnel_path_rewrite ['/']).2).2).2 ['/', 'a']⟩

/-! ## The full Tunnel operation

`TunnelService.Tunnel` (lines 253–382), embedded as a pure function of its
inputs and of an environment record that fixes the outcome of every
external interaction: the validator verdict, the `closed` flag observed at
each of the three mutex acquisitions, the `io.ReadAll` outcome, and the
winning arm of each of the two `select` statements. The function records
the evolution of the tunnel's `pendingRequests` map and the sequence of
writes performed on the external client's `http.ResponseWriter`.
-/

/-- One write performed on the client's `http.ResponseWriter`. -/
inductive WEvent
  | headerAdd (k v : String)
  | writeHeader (status : Nat)
  | writeBody (b : List Nat)
  deriving DecidableEq, Repr

/-- Winning arm of the enqueue `select` (lines 337–343). -/
inductive SendOutcome
  | sent
  | timedOut
  | disconnected
  deriving DecidableEq, Repr

/-- Winning arm of the rendezvous `select` (lines 346–381). `delivered r`
is a receive on `responseCh` yielding the pointer `r` (`none` is a nil
pointer, as produced by a receive on a channel the supervisor closed). -/
inductive RecvOutcome
  | delivered (r : Option ResponseData)
  | timedOut
  | disconnected
  deriving DecidableEq, Repr

/-- Environment of one `Tunnel` call. -/
structure TunnelEnv where
  validateOk : Bool
  closed1 : Bool
  closed2 : Bool
  closed3 : Bool
  bodyReadErr : Bool
  send : SendOutcome
  recv : RecvOutcome
  deriving DecidableEq, Repr

/-- Value of a standard base64 alphabet character. -/
def b64Val (c : Char) : Option Nat :=
  if 'A' ≤ c ∧ c ≤ 'Z' then some (c.toNat - 65)
  else if 'a' ≤ c ∧ c ≤ 'z' then some (c.toNat - 97 + 26)
  else if '0' ≤ c ∧ c ≤ '9' then some (c.toNat - 48 + 52)
  else if c = '+' then some 62
  else if c = '/' then some 63
  else none

/-- `base64.StdEncoding.DecodeString`: four-character groups, `=` padding,
`none` on corrupt input. Returns the decoded byte values. -/
def base64Decode : List Char → Option (List Nat)
  | [] => some []
  | c1 :: c2 :: c3 :: c4 :: rest =>
    match b64Val c1, b64Val c2 with
    | some v1, some v2 =>
      if c3 = '=' then
        if c4 = '=' then
          if rest = [] then some [v1 * 4 + v2 / 16] else none
        else none
      else
        match b64Val c3 with
        | none => none
        | some v3 =>
          if c4 = '=' then
            if rest = [] then
              some [v1 * 4 + v2 / 16, v2 % 16 * 16 + v3 / 4]
            else none
          else
            match b64Val c4 with
            | none => none
            | some v4 =>
              match base64Decode rest with
              | none => none
              | some ds =>
                some ((v1 * 4 + v2 / 16) :: (v2 % 16 * 16 + v3 / 4) ::
                  (v3 % 4 * 64 + v4) :: ds)
    | _, _ => none
  | _ => none

/-- The header-copy loop of the success path (lines 366–370): one
`w.Header().Add(key, v)` per header value. (Go map iteration order is
unspecified; the embedding iterates in list order, which is irrelevant to
the claims, all of which only distinguish header writes from the status
and body writes.) -/
def headerWrites : List (String × List String) → List WEvent
  | [] => []
  | (k, vs) :: rest => vs.map (fun v => WEvent.headerAdd k v) ++ headerWrites rest

/-- The local-api-error test (lines 353–357): the `Tunnerse` header is
present, non-empty, and its first value is `local-api-error`. -/
def isLocalApiError (resp : ResponseData) : Bool :=
  match alookup resp.headers "Tunnerse" with
  | some (v :: _) => v == "local-api-error"
  | _ => false

/-- Result of one `Tunnel` call: the returned error, the tunnel's pending
map after the call (the deferred cleanup at lines 290–294 included), and
the writes performed on the client's response writer. -/
structure TunnelOutput where
  err : Option String
  pending : List (String × Nat)
  events : List WEvent
  deriving DecidableEq, Repr

/-- `TunnelService.Tunnel` (lines 253–382). `found` is the registry
lookup verdict (lines 258–263), `pending0` the tunnel's pending map at the
insert (line 286), `token` the minted UUID (line 276), `chId` the fresh
capacity-1 response channel (line 279). On the success path the matching
`Response` has already removed `token` from the map (line 238), so the
deferred erase is a no-op there; `aerase` is idempotent, so the embedding
uses it uniformly for every post-insert exit. -/
def TunnelOp (found : Bool) (env : TunnelEnv)
    (pending0 : List (String × Nat)) (token : String) (chId : Nat) :
    TunnelOutput :=
  if !env.validateOk then ⟨some "invalid name", pending0, []⟩
  else if !found then ⟨some "tunnel not found", pending0, []⟩
  else if env.closed1 then ⟨some "tunnel is closed", pending0, []⟩
  else if env.closed2 then ⟨some "tunnel is closed", pending0, []⟩
  else if env.bodyReadErr then
    ⟨some "failed to read request body",
      aerase (ainsert pending0 token chId) token, []⟩
  else if env.closed3 then
    ⟨some "tunnel is closed", aerase (ainsert pending0 token chId) token, []⟩
  else
    match env.send with
    | .timedOut =>
      ⟨some "timeout", aerase (ainsert pending0 token chId) token, []⟩
    | .disconnected =>
      ⟨some "client disconnected",
        aerase (ainsert pending0 token chId) token, []⟩
    | .sent =>
      match env.recv with
      | .timedOut =>
        ⟨some "timeout", aerase (ainsert pending0 token chId) token, []⟩
      | .disconnected =>
        ⟨some "client disconnected",
          aerase (ainsert pending0 token chId) token, []⟩
      | .delivered none =>
        ⟨some "received nil response",
          aerase (ainsert pending0 token chId) token, []⟩
      | .delivered (some resp) =>
        if isLocalApiError resp then
          ⟨some "local-api-error",
            aerase (ainsert pending0 token chId) token, []⟩
        else
          match base64Decode resp.body.data with
          | none =>
            ⟨some "failed to decode base64 body",
              aerase (ainsert pending0 token chId) token, []⟩
          | some bytes =>
            ⟨none, aerase (ainsert pending0 token chId) token,
              headerWrites resp.headers ++
                [WEvent.writeHeader resp.statusCode, WEvent.writeBody bytes]⟩

/-! ## Controller dispatch

`TunnelController.Tunnel` (tunnel_controller.go, lines 105–134): on a
service error, when `WARNS_ON_HTML` is set the switch maps
`"tunnel not found"` to the not-found page and `"timeout"` to the timeout
page, and every other error — `"local-api-error"` included — to
`ctx.String(http.StatusInternalServerError, err.Error())`; with
`WARNS_ON_HTML` unset every error becomes a BadRequest JSON body. The
503 local-error page (`TunnelService.LocalError`, service lines 435–437)
exists but is reachable from no controller path.
-/

/-- What the external client ends up receiving from the controller. -/
inductive ClientOut
  | success
  | notFoundPage
  | timeoutPage
  | localErrorPage
  | internalErrorText (msg : String)
  | badRequestJson (msg : String)
  deriving DecidableEq, Repr

/-- Error dispatch of `TunnelController.Tunnel` (lines 113–128). -/
def controllerTunnelDispatch (warnsOnHtml : Bool) (result : Option String) :
    ClientOut :=
  match result with
  | none => ClientOut.success
  | some msg =>
    if warnsOnHtml then
      if msg = "tunnel not found" then ClientOut.notFoundPage
      else if msg = "timeout" then ClientOut.timeoutPage
      else ClientOut.internalErrorText msg
    else ClientOut.badRequestJson msg

/-! ## Claim theorems: C8 (pending-slot cleanup), C9 (writer frame),
C3 (local-api-error propagation) -/

/-- The pending map after a `Tunnel` call: untouched when the call exits
before the insert at line 286, and otherwise the insert followed by the
erase of the same token. -/
theorem tunnelOp_pending_cases (found : Bool) (env : TunnelEnv)
    (pending0 : List (String × Nat)) (token : String) (chId : Nat) :
    (TunnelOp found env pending0 token chId).pending = pending0 ∨
    (TunnelOp found env pending0 token chId).pending =
      aerase (ainsert pending0 token chId) token := by
  rcases env with ⟨vok, c1, c2, c3, berr, snd, rcv⟩
  cases vok <;> cases found <;> cases c1 <;> cases c2 <;> cases c3 <;>
    cases berr <;> cases snd <;>
    rcases rcv with (_ | resp) | _ | _ <;>
    first
      | exact Or.inl rfl
      | exact Or.inr rfl
      | skip
  all_goals
    refine Or.inr ?_
    cases hl : isLocalApiError resp with
    | true => simp [TunnelOp, hl]
    | false =>
      cases hdec : base64Decode resp.body.data with
      | none => simp [TunnelOp, hl, hdec]
      | some bytes => simp [TunnelOp, hl, hdec]

/-- C8: whatever the environment does — success, timeout, client
disconnect, tunnel closed at any of the re-checks, body-read failure, nil
response, base64 failure — a `Tunnel` call on a tunnel whose pending map
does not already bind its fresh token leaves the pending map with no entry
under that token: either the matching `Response` removed it (line 238) or
the deferred cleanup does (lines 290–294). -/
theorem tunnel_pending_cleanup (found : Bool) (env : TunnelEnv)
    (pending0 : List (String × Nat)) (token : String) (chId : Nat)
    (h : alookup pending0 token = none) :
    alookup (TunnelOp found env pending0 token chId).pending token = none := by
  obtain hp | hp := tunnelOp_pending_cases found env pending0 token chId
  · rw [hp]
    exact h
  · rw [hp]
    exact alookup_aerase_self _ _

/-- Witness for `tunnel_pending_cleanup`: a successful rendezvous. -/
theorem tunnel_pending_cleanup_witness :
    alookup
      (TunnelOp true
          { validateOk := true, closed1 := false, closed2 := false,
            closed3 := false, bodyReadErr := false,
            send := SendOutcome.sent,
            recv := RecvOutcome.delivered (some
              { statusCode := 200, headers := [], body := "", token := "tok" }) }
          [("other", 9)] "tok" 1).pending
      "tok" = none := by
  exact tunnel_pending_cleanup true
    { validateOk := true, closed1 := false, closed2 := false,
      closed3 := false, bodyReadErr := false,
      send := SendOutcome.sent,
      recv := RecvOutcome.delivered (some
        { statusCode := 200, headers := [], body := "", token := "tok" }) }
    [("other", 9)] "tok" 1 (by decide)

/-- Exhaustive classification of a `Tunnel` call: either it returns an
error having written nothing, or it is the successful rendezvous, whose
output is fully determined by the delivered payload. -/
theorem tunnelOp_classify (found : Bool) (env : TunnelEnv)
    (pending0 : List (String × Nat)) (token : String) (chId : Nat) :
    (∃ msg, (TunnelOp found env pending0 token chId).err = some msg ∧
      (TunnelOp found env pending0 token chId).events = []) ∨
    (∃ resp bytes, env.recv = RecvOutcome.delivered (some resp) ∧
      base64Decode resp.body.data = some bytes ∧
      TunnelOp found env pending0 token chId =
        ⟨none, aerase (ainsert pending0 token chId) token,
          headerWrites resp.headers ++
            [WEvent.writeHeader resp.statusCode, WEvent.writeBody bytes]⟩) := by
  rcases env with ⟨vok, c1, c2, c3, berr, snd, rcv⟩
  cases vok <;> cases found <;> cases c1 <;> cases c2 <;> cases c3 <;>
    cases berr <;> cases snd <;>
    rcases rcv with (_ | resp) | _ | _ <;>
    first
      | exact Or.inl ⟨_, rfl, rfl⟩
      | skip
  all_goals
    cases hl : isLocalApiError resp with
    | true =>
      refine Or.inl ⟨"local-api-error", ?_, ?_⟩ <;> simp [TunnelOp, hl]
    | false =>
      cases hdec : base64Decode resp.body.data with
      | none =>
        refine Or.inl ⟨"failed to decode base64 body", ?_, ?_⟩ <;>
          simp [TunnelOp, hl, hdec]
      | some bytes =>
        refine Or.inr ⟨resp, bytes, rfl, hdec, ?_⟩
        simp [TunnelOp, hl, hdec]

/-- C9: on every error exit of `Tunnel` nothing is written to the external
client's response writer; writes happen only on the successful rendezvous
path, and there they are exactly the agent's headers, then the status
code, then the decoded body, in that order. -/
theorem tunnel_writer_frame (found : Bool) (env : TunnelEnv)
    (pending0 : List (String × Nat)) (token : String) (chId : Nat) :
    ((TunnelOp found env pending0 token chId).err ≠ none →
      (TunnelOp found env pending0 token chId).events = []) ∧
    ((TunnelOp found env pending0 token chId).err = none →
      ∃ resp bytes, env.recv = RecvOutcome.delivered (some resp) ∧
        base64Decode resp.body.data = some bytes ∧
        (TunnelOp found env pending0 token chId).events =
          headerWrites resp.headers ++
            [WEvent.writeHeader resp.statusCode, WEvent.writeBody bytes]) := by
  obtain h | h := tunnelOp_classify found env pending0 token chId
  · obtain ⟨msg, hm, he⟩ := h
    constructor
    · intro _
      exact he
    · intro hok
      rw [hm] at hok
      cases hok
  · obtain ⟨resp, bytes, hr, hd, heq⟩ := h
    constructor
    · intro herr
      rw [heq] at herr
      exact absurd rfl herr
    · intro _
      exact ⟨resp, bytes, hr, hd, by rw [heq]⟩

/-- Witness for `tunnel_writer_frame`: a timed-out call writes nothing. -/
theorem tunnel_writer_frame_witness :
    (TunnelOp true
        { validateOk := true, closed1 := false, closed2 := false,
          closed3 := false, bodyReadErr := false,
          send := SendOutcome.timedOut, recv := RecvOutcome.timedOut }
        [] "tok" 1).events = [] := by
  exact (tunnel_writer_frame true
    { validateOk := true, closed1 := false, closed2 := false,
      closed3 := false, bodyReadErr := false,
      send := SendOutcome.timedOut, recv := RecvOutcome.timedOut }
    [] "tok" 1).1 (by decide)

/-- C3: the claim is right about the service and wrong about what the
client receives, because the controller forgot the case. When the matched
`ResponseData` carries `Tunnerse: local-api-error`, the service returns
the `local-api-error` error before writing anything — no agent header,
status or body reaches the client's writer — but the controller's switch
(tunnel_controller.go lines 113–128) has no `local-api-error` case: with
`WARNS_ON_HTML` the client gets a 500 with the literal error text, without
it a BadRequest JSON — never the 503 `localerror.html` page, even though
`TunnelService.LocalError` (lines 435–437) implements exactly that page
and is called from nowhere. -/
theorem local_api_error_dispatch
    :
    (TunnelOp true
        { validateOk := true, closed1 := false, closed2 := false,
          closed3 := false, bodyReadErr := false,
          send := SendOutcome.sent,
          recv := RecvOutcome.delivered (some
            { statusCode := 200,
              headers := [("Tunnerse", ["local-api-error"])],
              body := "", token := "tok" }) }
        [] "tok" 1).err = some "local-api-error" ∧
    (TunnelOp true
        { validateOk := true, closed1 := false, closed2 := false,
          closed3 := false, bodyReadErr := false,
          send := SendOutcome.sent,
          recv := RecvOutcome.delivered (some
            { statusCode := 200,
              headers := [("Tunnerse", ["local-api-error"])],
              body := "", token := "tok" }) }
        [] "tok" 1).events = [] ∧
    controllerTunnelDispatch true (some "local-api-error") =
      ClientOut.internalErrorText "local-api-error" ∧
    controllerTunnelDispatch false (some "local-api-error") =
      ClientOut.badRequestJson "local-api-error" ∧
    controllerTunnelDispatch true (some "local-api-error") ≠
      ClientOut.localErrorPage ∧
    controllerTunnelDispatch false (some "local-api-error") ≠
      ClientOut.localErrorPage := by
  refine ⟨by decide, by decide, by decide, by decide, by decide, by decide⟩

/-! ## The per-request response-channel protocol

For claim C10 the interleaving of the parties around one tunnel's
`pendingRequests` map and its per-request response channels is modelled as
a transition system. The parties and their mutex-protected atomic steps:

* a `Tunnel` handler inserts a fresh capacity-1 channel under its fresh
  token (lines 279–287) and later runs its deferred cleanup
  (lines 290–294, which deletes but never closes);
* a `Response` call removes a token's channel from the map under the mutex
  (lines 233–239) and then, outside the mutex, sends into it and closes it
  (lines 241–248);
* the supervisor teardown closes exactly the channels still present in the
  map and clears it (lines 103–110);
* a `Tunnel` handler's receive on its channel (line 347) completes only
  when the channel holds a value or has been closed.

Channel ids are allocated in increasing order (`fresh`), modelling that
each `Tunnel` call's `make(chan *ResponseWithToken, 1)` is a new object.
-/

/-- Runtime state of one response channel: how many values are buffered
(capacity is 1 for all of them) and whether it has been closed. -/
structure ChanSt where
  queued : Nat
  isClosed : Bool
  deriving DecidableEq, Repr

/-- Pointwise update of the channel-state table. -/
def chanUpdate (f : Nat → ChanSt) (id : Nat) (v : ChanSt) : Nat → ChanSt :=
  fun c => if c = id then v else f c

/-- Global protocol state of one tunnel: the pending map, the channels
currently held by an in-flight `Response` that has removed them from the
map but not yet sent, the channel-state table, and the next fresh id. -/
structure ProtoState where
  pending : List (String × Nat)
  owned : List Nat
  chans : Nat → ChanSt
  fresh : Nat

/-- The channels referenced by the pending map or owned by an in-flight
`Response`. -/
def chansOf (s : ProtoState) : List Nat :=
  s.pending.map Prod.snd ++ s.owned

/-- Atomic steps of the protocol. -/
inductive ProtoStep : ProtoState → ProtoState → Prop
  | tunnelInsert (s : ProtoState) (tok : String)
      (h : alookup s.pending tok = none) :
      ProtoStep s
        ⟨ainsert s.pending tok s.fresh, s.owned,
          chanUpdate s.chans s.fresh ⟨0, false⟩, s.fresh + 1⟩
  | tunnelCleanup (s : ProtoState) (tok : String) :
      ProtoStep s ⟨aerase s.pending tok, s.owned, s.chans, s.fresh⟩
  | responseRemove (s : ProtoState) (tok : String) (ch : Nat)
      (h : alookup s.pending tok = some ch) :
      ProtoStep s ⟨aerase s.pending tok, ch :: s.owned, s.chans, s.fresh⟩
  | responseSend (s : ProtoState) (ch : Nat) (h : ch ∈ s.owned) :
      ProtoStep s
        ⟨s.pending, s.owned.erase ch,
          chanUpdate s.chans ch ⟨(s.chans ch).queued + 1, true⟩, s.fresh⟩
  | supervisorTeardown (s : ProtoState) :
      ProtoStep s
        ⟨[], s.owned,
          fun c =>
            if c ∈ s.pending.map Prod.snd then ⟨(s.chans c).queued, true⟩
            else s.chans c,
          s.fresh⟩
  | tunnelRecv (s : ProtoState) (ch : Nat)
      (h : 0 < (s.chans ch).queued ∨ (s.chans ch).isClosed = true) :
      ProtoStep s
        ⟨s.pending, s.owned,
          chanUpdate s.chans ch
            ⟨(s.chans ch).queued - 1, (s.chans ch).isClosed⟩, s.fresh⟩

/-- States reachable from a tunnel fresh out of `Register` (empty map, no
in-flight `Response`, no channel allocated). -/
inductive ProtoReachable : ProtoState → Prop
  | init : ProtoReachable ⟨[], [], fun _ => ⟨0, false⟩, 0⟩
  | step (s s' : ProtoState) :
      ProtoReachable s → ProtoStep s s' → ProtoReachable s'

/-- Protocol invariant: no channel is referenced twice (by the map or by
in-flight `Response` calls), every referenced channel id has been
allocated, and every referenced channel is empty and open. -/
def ProtoInv (s : ProtoState) : Prop :=
  (chansOf s).Nodup ∧
  ∀ ch ∈ chansOf s, ch < s.fresh ∧ s.chans ch = ⟨0, false⟩

theorem aerase_sublist {β : Type} (l : List (String × β)) (k : String) :
    List.Sublist (aerase l k) l := by
  induction l with
  | nil => exact List.Sublist.refl []
  | cons hd t ih =>
    obtain ⟨k', v⟩ := hd
    by_cases h : k' = k
    · simpa [aerase, h] using ih.cons (k', v)
    · simpa [aerase, h] using ih.cons₂ (k', v)

theorem alookup_mem {β : Type} {l : List (String × β)} {k : String} {v : β}
    (h : alookup l k = some v) : (k, v) ∈ l := by
  induction l with
  | nil => exact absurd h (by simp [alookup])
  | cons hd t ih =>
    obtain ⟨k', v'⟩ := hd
    by_cases hk : k' = k
    · subst hk
      simp [alookup] at h
      subst h
      exact List.mem_cons_self _ _
    · simp [alookup, hk] at h
      exact List.mem_cons_of_mem _ (ih h)

theorem mem_map_snd_aerase {l : List (String × Nat)} {k : String} {ch : Nat}
    (h : alookup l k = some ch) (hnd : (l.map Prod.snd).Nodup) :
    ch ∉ (aerase l k).map Prod.snd := by
  induction l with
  | nil => simp [alookup] at h
  | cons hd t ih =>
    obtain ⟨k', v⟩ := hd
    by_cases hk : k' = k
    · subst hk
      simp only [alookup, if_pos rfl] at h
      cases h
      simp only [List.map_cons, List.nodup_cons] at hnd
      intro hmem
      exact hnd.1 (((aerase_sublist t k').map Prod.snd).subset
        (by simpa [aerase] using hmem))
    · simp only [alookup, if_neg hk] at h
      simp only [List.map_cons, List.nodup_cons] at hnd
      have hcht : ch ∈ t.map Prod.snd :=
        List.mem_map.mpr ⟨(k, ch), alookup_mem h, rfl⟩
      have hvch : v ≠ ch := fun hv => hnd.1 (hv ▸ hcht)
      intro hmem
      simp only [aerase, if_neg hk, List.map_cons, List.mem_cons] at hmem
      rcases hmem with hmem | hmem
      · exact hvch hmem.symm
      · exact ih h hnd.2 hmem

theorem protoInv_init : ProtoInv ⟨[], [], fun _ => ⟨0, false⟩, 0⟩ := by
  constructor
  · simp [chansOf]
  · intro ch hch
    simp [chansOf] at hch

theorem protoInv_step (s s' : ProtoState) (hs : ProtoInv s)
    (st : ProtoStep s s') : ProtoInv s' := by
  obtain ⟨hnd, hmem⟩ := hs
  cases st with
  | tunnelInsert tok h =>
    have hsub : List.Sublist
        ((aerase s.pending tok).map Prod.snd ++ s.owned)
        (s.pending.map Prod.snd ++ s.owned) :=
      ((aerase_sublist s.pending tok).map Prod.snd).append_right s.owned
    have hndrest : ((aerase s.pending tok).map Prod.snd ++ s.owned).Nodup :=
      hnd.sublist hsub
    have hfreshnot : s.fresh ∉ (aerase s.pending tok).map Prod.snd ++ s.owned := by
      intro hin
      have := (hmem s.fresh (hsub.subset hin)).1
      exact absurd this (Nat.lt_irrefl s.fresh)
    constructor
    · show (s.fresh :: ((aerase s.pending tok).map Prod.snd ++ s.owned)).Nodup
      exact List.nodup_cons.mpr ⟨hfreshnot, hndrest⟩
    · intro ch hch
      rcases List.mem_cons.mp hch with hch | hch
      · subst hch
        exact ⟨Nat.lt_succ_self _, by simp [chanUpdate]⟩
      · obtain ⟨hlt, hst⟩ := hmem ch (hsub.subset hch)
        exact ⟨Nat.lt_succ_of_lt hlt,
          by simp [chanUpdate, Nat.ne_of_lt hlt, hst]⟩
  | tunnelCleanup tok =>
    have hsub : List.Sublist
        ((aerase s.pending tok).map Prod.snd ++ s.owned)
        (s.pending.map Prod.snd ++ s.owned) :=
      ((aerase_sublist s.pending tok).map Prod.snd).append_right s.owned
    exact ⟨hnd.sublist hsub, fun ch hch => hmem ch (hsub.subset hch)⟩
  | responseRemove tok ch h =>
    have hchp : ch ∈ s.pending.map Prod.snd :=
      List.mem_map.mpr ⟨(tok, ch), alookup_mem h, rfl⟩
    have hdisj : List.Disjoint (s.pending.map Prod.snd) s.owned :=
      List.disjoint_of_nodup_append hnd
    have hchowned : ch ∉ s.owned := fun hin => hdisj hchp hin
    have hcherase : ch ∉ (aerase s.pending tok).map Prod.snd :=
      mem_map_snd_aerase h hnd.of_append_left
    have hsub : List.Sublist
        ((aerase s.pending tok).map Prod.snd ++ s.owned)
        (s.pending.map Prod.snd ++ s.owned) :=
      ((aerase_sublist s.pending tok).map Prod.snd).append_right s.owned
    have hndrest : ((aerase s.pending tok).map Prod.snd ++ s.owned).Nodup :=
      hnd.sublist hsub
    constructor
    · show ((aerase s.pending tok).map Prod.snd ++ ch :: s.owned).Nodup
      refine (List.perm_middle.nodup_iff).mpr ?_
      exact List.nodup_cons.mpr
        ⟨by simp [hcherase, hchowned], hndrest⟩
    · intro c hc
      rcases List.mem_append.mp hc with hc | hc
      · exact hmem c (hsub.subset (List.mem_append_left _ hc))
      · rcases List.mem_cons.mp hc with hc | hc
        · subst hc
          exact hmem c (List.mem_append_left _ hchp)
        · exact hmem c (List.mem_append_right _ hc)
  | responseSend ch h =>
    have hsub : List.Sublist
        (s.pending.map Prod.snd ++ s.owned.erase ch)
        (s.pending.map Prod.snd ++ s.owned) :=
      (List.erase_sublist ch s.owned).append_left (s.pending.map Prod.snd)
    have hndowned : s.owned.Nodup := hnd.of_append_right
    have hdisj : List.Disjoint (s.pending.map Prod.snd) s.owned :=
      List.disjoint_of_nodup_append hnd
    constructor
    · exact hnd.sublist hsub
    · intro c hc
      obtain ⟨hlt, hst⟩ := hmem c (hsub.subset hc)
      have hne : c ≠ ch := by
        rcases List.mem_append.mp hc with hc | hc
        · exact fun hcc => hdisj (hcc ▸ hc) h
        · exact fun hcc => (hndowned.not_mem_erase) (hcc ▸ hc)
      exact ⟨hlt, by simp [chanUpdate, hne, hst]⟩
  | supervisorTeardown =>
    have hndowned : s.owned.Nodup := hnd.of_append_right
    have hdisj : List.Disjoint (s.pending.map Prod.snd) s.owned :=
      List.disjoint_of_nodup_append hnd
    constructor
    · show (([] : List (String × Nat)).map Prod.snd ++ s.owned).Nodup
      simpa using hndowned
    · intro c hc
      have hc' : c ∈ s.owned := by simpa [chansOf] using hc
      obtain ⟨hlt, hst⟩ := hmem c (List.mem_append_right _ hc')
      have hnp : c ∉ s.pending.map Prod.snd := fun hin => hdisj hin hc'
      exact ⟨hlt, by simp [hnp, hst]⟩
  | tunnelRecv ch h =>
    constructor
    · exact hnd
    · intro c hc
      obtain ⟨hlt, hst⟩ := hmem c hc
      have hne : c ≠ ch := by
        intro hcc
        subst hcc
        rw [hst] at h
        rcases h with h | h
        · exact absurd h (Nat.lt_irrefl 0)
        · exact Bool.noConfusion h
      exact ⟨hlt, by simp [chanUpdate, hne, hst]⟩

/-- Every reachable protocol state satisfies the invariant. -/
theorem protoInv_reachable (s : ProtoState) (h : ProtoReachable s) :
    ProtoInv s := by
  induction h with
  | init => exact protoInv_init
  | step s s' _ hstep ih => exact protoInv_step s s' ih hstep

/-- Go semantics of the send `select` at lines 242–248: the send into the
capacity-1 channel commits immediately iff the channel is open and has
buffer space; only otherwise could the 5-second stale-slot timer fire. -/
def responseSendDelivers (s : ProtoState) (ch : Nat) : Bool :=
  decide ((s.chans ch).queued < 1) && !(s.chans ch).isClosed

/-! ## Claim theorem: C10 (the stale-slot timeout branch is unreachable) -/

/-- C10: in every reachable protocol state, a channel that an in-flight
`Response` has removed from the pending map is open and empty, so the send
into it commits immediately and the `response channel timeout` branch
(line 245–247) can never be taken: the channel has capacity 1, only the
removing `Response` ever sends on or closes it, and the supervisor closes
only channels still present in the map. -/
theorem response_send_never_stale (s : ProtoState) (h : ProtoReachable s)
    (ch : Nat) (hch : ch ∈ s.owned) :
    responseSendDelivers s ch = true := by
  obtain ⟨_, hmem⟩ := protoInv_reachable s h
  obtain ⟨_, hst⟩ := hmem ch (List.mem_append_right _ hch)
  simp [responseSendDelivers, hst]

/-- Witness for `response_send_never_stale`: the state after one
`Tunnel` insert followed by the matching `Response` removal. -/
theorem response_send_never_stale_witness :
    responseSendDelivers
      ⟨aerase (ainsert [] "t" 0) "t", 0 :: [],
        chanUpdate (fun _ => ⟨0, false⟩) 0 ⟨0, false⟩, 0 + 1⟩ 0 = true := by
  refine response_send_never_stale _ ?_ 0 ?_
  · refine ProtoReachable.step _ _
      (ProtoReachable.step _ _ ProtoReachable.init
        (ProtoStep.tunnelInsert _ "t" (by decide))) ?_
    exact ProtoStep.responseRemove _ "t" 0 (by decide)
  · exact List.mem_singleton.mpr rfl

end Tunnerse
